import Mathlib

/-!
Verification of `inverse_covariance/two_way_standard_scaler.py`.

The module standardizes a dense two-dimensional matrix along both axes:
a free function `two_way_standardize` runs an iterative bi-directional
normalization loop, and the estimator `TwoWayStandardScaler` wraps it with
`fit` / `transform` / `inverse_transform` methods.

Matrices are embedded as `List (List ℝ)` in row-major order (exact real
arithmetic in place of floating point).  The external sklearn/numpy
collaborators (`check_array`, `scale`, `_handle_zeros_in_scale`,
`_incremental_mean_and_var`, Frobenius norm) are not part of the repository;
they are modelled from the spec's description of them, in exact arithmetic.
-/

namespace TwoWayScaler

/-- A dense matrix: list of rows, each row a list of real entries. -/
abbrev Mat := List (List ℝ)

/-- Number of columns of a matrix: the length of its first row
(matches `np.shape` on the rectangular arrays produced by `check_array`). -/
def ncols (M : Mat) : ℕ := (M.headD []).length

/-- numpy transpose `X.T` of a rectangular matrix. -/
def transpose (M : Mat) : Mat :=
  (List.range (ncols M)).map (fun j => M.map (fun row => row.getD j 0))

/-- `M` is a rectangular `r × c` matrix. -/
def rect (M : Mat) (r c : ℕ) : Prop :=
  M.length = r ∧ ∀ row ∈ M, row.length = c

/-- Arithmetic mean of a list of reals (`np.mean`). -/
noncomputable def mean (l : List ℝ) : ℝ := l.sum / l.length

/-- Population variance of a list of reals (`np.var`, `ddof = 0`). -/
noncomputable def variance (l : List ℝ) : ℝ :=
  ((l.map (fun x => (x - mean l) ^ 2)).sum) / l.length

/-- Modelled from the spec: the near-zero-variance floor of the external
primitive `_handle_zeros_in_scale` (missing from `src/`, it lives in
sklearn) — "substituting a nominal scale (e.g., 1.0) when computed standard
deviation is numerically indistinguishable from zero".  In exact arithmetic
the substitution fires exactly at zero. -/
noncomputable def handleZeros (s : ℝ) : ℝ := if s = 0 then 1 else s

/-- Modelled from the spec: the external "one-axis scale-and-center
primitive" (sklearn `scale`, missing from `src/`) applied to a single unit
(one row of the array being scaled along its second axis): "centering
subtracts the per-unit mean; scaling divides by the per-unit standard
deviation, with any near-zero standard deviation replaced by 1.0". -/
noncomputable def scaleRow (with_std : Bool) (l : List ℝ) : List ℝ :=
  let centered := l.map (fun x => x - mean l)
  if with_std then
    centered.map (fun x => x / handleZeros (Real.sqrt (variance l)))
  else centered

/-- `scale(A, axis=1, with_mean=True, with_std)`: standardize each row. -/
noncomputable def scaleRows (with_std : Bool) (M : Mat) : Mat :=
  M.map (scaleRow with_std)

/-- Elementwise matrix subtraction (numpy `A - B` on same-shaped arrays). -/
def matSub (A B : Mat) : Mat :=
  List.zipWith (fun r s => List.zipWith (fun a b => a - b) r s) A B

/-- Frobenius norm `np.linalg.norm(A, "fro")`. -/
noncomputable def fro (M : Mat) : ℝ :=
  Real.sqrt ((M.map (fun row => (row.map (fun x => x ^ 2)).sum)).sum)

/-- State of the normalization loop in `two_way_standardize`
(lines 75–97): the two working matrices, their previous-iteration copies,
the current convergence error (`none` models the initial `np.inf`), and the
iteration counter `n_iter`. -/
@[ext]
structure LoopSt where
  xrow : Mat
  xcol : Mat
  oldXrow : Mat
  oldXcol : Mat
  err : Option ℝ
  n_iter : ℕ

/-- The loop guard `err_norm > tol`; `none` is the initial `np.inf`,
which exceeds every tolerance. -/
def errGt : Option ℝ → ℝ → Prop
  | none, _ => True
  | some e, tol => e > tol

noncomputable instance (e : Option ℝ) (t : ℝ) : Decidable (errGt e t) :=
  match e with
  | none => .isTrue trivial
  | some x => inferInstanceAs (Decidable (x > t))

/-- One iteration of the `while` body (lines 84–97):

    Xcol_polish = scale(Xrow_polish.T, axis=1, with_mean=True, with_std=with_std)
    Xrow_polish = scale(Xcol_polish.T, axis=1, with_mean=True, with_std=with_std)
    n_iter += 1
    err_norm_row = np.linalg.norm(oldXrow - Xrow_polish, "fro")
    err_norm_col = np.linalg.norm(oldXcol - Xcol_polish, "fro")
    err_norm = .5 * err_norm_row / (n_rows * n_cols) + .5 * err_norm_col / (n_rows * n_cols)
    oldXrow = np.copy(Xrow_polish)
    oldXcol = np.copy(Xcol_polish)
-/
noncomputable def body (ws : Bool) (nr nc : ℕ) (s : LoopSt) : LoopSt :=
  let xcol := scaleRows ws (transpose s.xrow)
  let xrow := scaleRows ws (transpose xcol)
  let err_norm_row := fro (matSub s.oldXrow xrow)
  let err_norm_col := fro (matSub s.oldXcol xcol)
  let err_norm := 1 / 2 * err_norm_row / ((nr : ℝ) * (nc : ℝ))
      + 1 / 2 * err_norm_col / ((nr : ℝ) * (nc : ℝ))
  { xrow := xrow, xcol := xcol, oldXrow := xrow, oldXcol := xcol,
    err := some err_norm, n_iter := s.n_iter + 1 }

/-- The `while n_iter <= max_iter and err_norm > tol` loop, by fuel:
`fuel` is the number of iterations the counter guard still allows,
i.e. `max_iter + 1 - n_iter`. -/
noncomputable def loop (ws : Bool) (nr nc : ℕ) (tol : ℝ) : ℕ → LoopSt → LoopSt
  | 0, s => s
  | fuel + 1, s =>
    if errGt s.err tol then loop ws nr nc tol fuel (body ws nr nc s) else s

/-- Initial loop state (lines 75–82): `Xrow_polish = np.copy(X.T)`,
`Xcol_polish = np.copy(X)`, `err_norm = np.inf`, `n_iter = 0`. -/
def initSt (X : Mat) : LoopSt :=
  { xrow := transpose X, xcol := X, oldXrow := transpose X, oldXcol := X,
    err := none, n_iter := 0 }

/-- Full run of the normalization loop of `two_way_standardize` on a dense
matrix, returning the final loop state.  The guard `n_iter <= max_iter`
admits `max_iter + 1` iterations, hence the fuel. -/
noncomputable def twoWayRun (X : Mat) (with_std : Bool) (max_iter : ℕ)
    (tol : ℝ) : LoopSt :=
  loop with_std X.length (ncols X) tol (max_iter + 1) (initSt X)

/-- `two_way_standardize` on an already-validated dense matrix
(lines 75–99).  The `with_mean` parameter is accepted but, as in the
source, never used by the body: both `scale` calls hardcode
`with_mean=True`.  Returns `Xrow_polish.T`. -/
noncomputable def twoWayStandardize (X : Mat) (with_mean with_std : Bool)
    (max_iter : ℕ) (tol : ℝ) : Mat :=
  letI _unused := with_mean
  transpose (twoWayRun X with_std max_iter tol).xrow

/-- Error kinds of the module, per the spec's error-handling design:
`unsupportedInputKind` for a sparse input where dense is required,
`notFitted` for `transform`/`inverse_transform` before `fit`. -/
inductive Err where
  | unsupportedInputKind
  | notFitted
  deriving DecidableEq

/-- Inputs at the public boundary: a dense matrix or a sparse
representation (payload irrelevant to the rejection behavior). -/
inductive Input where
  | dense (M : Mat)
  | sparse (M : Mat)

/-- Modelled from the spec: the external "array validator/coercer"
(sklearn `check_array`, missing from `src/`, called with
`accept_sparse=None`) — "accepts array-like or sparse input, returns a
dense floating-point array or raises on sparse/non-finite input".  On a
sparse input it raises before the function body runs; the error kind is
the sparse-rejection kind `UnsupportedInputKind`. -/
def checkArray : Input → Except Err Mat
  | .dense M => .ok M
  | .sparse _ => .error .unsupportedInputKind

/-- `two_way_standardize` at the public boundary (lines 67–99):
validate / reject sparse, then run the normalization loop. -/
noncomputable def two_way_standardize (X : Input) (with_mean with_std : Bool)
    (max_iter : ℕ) (tol : ℝ) : Except Err Mat :=
  match checkArray X with
  | .error e => .error e
  | .ok M => .ok (twoWayStandardize M with_mean with_std max_iter tol)

/-- The statistics recorded by `fit` (attribute names as in the source). -/
structure FitStats where
  col_mean_ : List ℝ
  col_var_ : Option (List ℝ)
  row_mean_ : List ℝ
  row_var_ : Option (List ℝ)
  row_scale_ : Option (List ℝ)
  col_scale_ : Option (List ℝ)
  n_rows_seen_ : ℕ
  n_cols_seen_ : ℕ

/-- The `TwoWayStandardScaler` estimator: constructor parameters plus the
fitted statistics (`none` before a successful `fit`; `check_is_fitted`
succeeds exactly when they are present). -/
structure TwoWayStandardScaler where
  with_mean : Bool
  with_std : Bool
  copy : Bool
  fitted : Option FitStats

/-- Per-column means of a matrix — modelled from the spec: the external
"incremental mean/variance accumulator" (`_incremental_mean_and_var`,
missing from `src/`) folded once from the fresh zero state yields the
per-column mean over the row axis. -/
noncomputable def colMeans (M : Mat) : List ℝ := (transpose M).map mean

/-- Per-column population variances — modelled from the spec, as
`colMeans`. -/
noncomputable def colVars (M : Mat) : List ℝ := (transpose M).map variance

/-- `TwoWayStandardScaler.fit` (lines 174–223): validate / reject sparse,
record column statistics of `X` and row statistics of `X.T`, and derive
the scales through the near-zero floor when `with_std` is set. -/
noncomputable def fit (sc : TwoWayStandardScaler) (X : Input) :
    Except Err TwoWayStandardScaler :=
  match checkArray X with
  | .error e => .error e
  | .ok M =>
    let col_var := if sc.with_std then some (colVars M) else none
    let row_var := if sc.with_std then some (colVars (transpose M)) else none
    let row_scale := if sc.with_std then
        some ((colVars (transpose M)).map (fun v => handleZeros (Real.sqrt v)))
      else none
    let col_scale := if sc.with_std then
        some ((colVars M).map (fun v => handleZeros (Real.sqrt v)))
      else none
    let st : FitStats :=
      { col_mean_ := colMeans M, col_var_ := col_var,
        row_mean_ := colMeans (transpose M), row_var_ := row_var,
        row_scale_ := row_scale, col_scale_ := col_scale,
        n_rows_seen_ := M.length, n_cols_seen_ := ncols M }
    .ok { sc with fitted := some st }

/-- `TwoWayStandardScaler.transform` (lines 225–247): `check_is_fitted`,
validate / reject sparse, then `return two_way_standardize(X)` — all
parameters of the procedure left at their defaults (`with_mean=True`,
`with_std=True`, `max_iter=50`, `tol=1e-6`). -/
noncomputable def transform (sc : TwoWayStandardScaler) (X : Input) :
    Except Err Mat :=
  match sc.fitted with
  | none => .error .notFitted
  | some _ =>
    match checkArray X with
    | .error e => .error e
    | .ok M => .ok (twoWayStandardize M true true 50 (1 / 1000000))

/-- A numpy array as seen inside `inverse_transform`: the underlying
buffer, kept in the caller's original `(r, c)` orientation, plus a flag
recording whether the current handle `X` is a transposed view of it
(`X = X.T` produces a view sharing the buffer). -/
structure ArrSt where
  buf : Mat
  transposed : Bool

/-- `X = X.T`: re-view the same buffer transposed. -/
def viewT (a : ArrSt) : ArrSt := { a with transposed := !a.transposed }

/-- In-place broadcast multiply `X *= v` where `v` is a vector whose
length matches the view's row length.  On an untransposed `(r, c)` view,
row `i` of the buffer is multiplied elementwise by `v`; on a transposed
`(c, r)` view, view entry `(j, i)` is buffer entry `(i, j)` and is
multiplied by `v i`, i.e. buffer row `i` is scaled by the scalar `v i`. -/
noncomputable def viewMul (a : ArrSt) (v : List ℝ) : ArrSt :=
  if a.transposed then
    { a with buf := List.zipWith (fun s row => row.map (fun x => x * s)) v a.buf }
  else
    { a with buf := a.buf.map (fun row => List.zipWith (fun x s => x * s) row v) }

/-- In-place broadcast add `X += v`, same broadcasting as `viewMul`. -/
noncomputable def viewAdd (a : ArrSt) (v : List ℝ) : ArrSt :=
  if a.transposed then
    { a with buf := List.zipWith (fun s row => row.map (fun x => x + s)) v a.buf }
  else
    { a with buf := a.buf.map (fun row => List.zipWith (fun x s => x + s) row v) }

/-- The arithmetic of `inverse_transform` (lines 274–288), as the chain of
in-place view operations of the source:

    X = X.T
    if self.with_std:  X *= self.row_scale_
    if self.with_mean: X += self.row_mean_
    X = X.T
    if self.with_std:  X *= self.col_scale_
    if self.with_mean: X += self.col_mean_
-/
noncomputable def invRun (with_mean with_std : Bool) (st : FitStats)
    (M : Mat) : ArrSt :=
  let a1 := viewT { buf := M, transposed := false }
  let a2 := if with_std then viewMul a1 (st.row_scale_.getD []) else a1
  let a3 := if with_mean then viewAdd a2 st.row_mean_ else a2
  let a4 := viewT a3
  let a5 := if with_std then viewMul a4 (st.col_scale_.getD []) else a4
  let a6 := if with_mean then viewAdd a5 st.col_mean_ else a5
  a6

/-- Read a view out as a plain matrix (what the caller receives). -/
def materialize (a : ArrSt) : Mat :=
  if a.transposed then transpose a.buf else a.buf

/-- Observable outcome of a successful `inverse_transform` call: the
returned matrix, the warnings emitted during the call, and the contents of
the caller's own array after the call (the buffer the in-place operations
acted on when `copy=False`, the untouched original when `copy=True`). -/
structure InvOut where
  result : Mat
  warnings : List String
  callerAfter : Mat

/-- The single warning text of `inverse_transform` (line 268). -/
def approxWarning : String := "Reversing two way transformation is not accurate."

/-- `TwoWayStandardScaler.inverse_transform` (lines 249–290):
`check_is_fitted`, reject sparse, warn once that the inversion is
approximate, then apply the fitted statistics through in-place view
operations.  With `copy=False` (the default) `np.asarray` returns the
caller's own float array and the operations mutate it; with `copy=True`
they run on a fresh copy. -/
noncomputable def inverse_transform (sc : TwoWayStandardScaler) (X : Input)
    (copy : Bool) : Except Err InvOut :=
  match sc.fitted with
  | none => .error .notFitted
  | some st =>
    match X with
    | .sparse _ => .error .unsupportedInputKind
    | .dense M =>
      let a := invRun sc.with_mean sc.with_std st M
      .ok { result := materialize a,
            warnings := [approxWarning],
            callerAfter := if copy then M else a.buf }

/-! ### Structural lemmas about the loop -/

lemma body_n_iter (ws : Bool) (nr nc : ℕ) (s : LoopSt) :
    (body ws nr nc s).n_iter = s.n_iter + 1 := rfl

lemma body_err (ws : Bool) (nr nc : ℕ) (s : LoopSt) :
    (body ws nr nc s).err =
      some (1 / 2 * fro (matSub s.oldXrow (body ws nr nc s).xrow) / ((nr : ℝ) * (nc : ℝ))
        + 1 / 2 * fro (matSub s.oldXcol (body ws nr nc s).xcol) / ((nr : ℝ) * (nc : ℝ))) :=
  rfl

lemma loop_n_iter_le (ws : Bool) (nr nc : ℕ) (tol : ℝ) :
    ∀ (k : ℕ) (s : LoopSt), (loop ws nr nc tol k s).n_iter ≤ s.n_iter + k
  | 0, s => by simp [loop]
  | k + 1, s => by
    rw [loop]
    by_cases h : errGt s.err tol
    · rw [if_pos h]
      have := loop_n_iter_le ws nr nc tol k (body ws nr nc s)
      rw [body_n_iter] at this
      omega
    · rw [if_neg h]; omega

lemma loop_n_iter_ge (ws : Bool) (nr nc : ℕ) (tol : ℝ) :
    ∀ (k : ℕ) (s : LoopSt), s.n_iter ≤ (loop ws nr nc tol k s).n_iter
  | 0, s => by simp [loop]
  | k + 1, s => by
    rw [loop]
    by_cases h : errGt s.err tol
    · rw [if_pos h]
      have := loop_n_iter_ge ws nr nc tol k (body ws nr nc s)
      rw [body_n_iter] at this
      omega
    · rw [if_neg h]

/-! ### Claim theorems (first batch) -/

/-- C3 (amended): for every dense input and every `max_iter` budget, the
normalization loop of `two_way_standardize` executes at most
`max_iter + 1` iterations (the guard is `n_iter <= max_iter` with
`n_iter` starting at 0); in particular at most 51 with the default budget
of 50. -/
theorem C3_loop_executes_at_most_max_iter_succ (X : Mat) (ws : Bool)
    (max_iter : ℕ) (tol : ℝ) :
    (twoWayRun X ws max_iter tol).n_iter ≤ max_iter + 1 := by
  have h := loop_n_iter_le ws X.length (ncols X) tol (max_iter + 1) (initSt X)
  simpa [twoWayRun, initSt] using h

/-- C5: in every iteration of the normalization loop the recorded
convergence error is the unweighted average of the Frobenius norms of the
change in the row-working and column-working matrices since the previous
iteration, each norm divided by the total element count, and the loop
stops early (performs no further iteration) exactly when that error is
less than or equal to the tolerance. -/
theorem C5_error_formula_and_stop (ws : Bool) (nr nc : ℕ) (tol : ℝ)
    (k : ℕ) (s : LoopSt) :
    (body ws nr nc s).err =
      some ((fro (matSub s.oldXrow (body ws nr nc s).xrow) / ((nr : ℝ) * (nc : ℝ))
        + fro (matSub s.oldXcol (body ws nr nc s).xcol) / ((nr : ℝ) * (nc : ℝ))) / 2)
    ∧ ((loop ws nr nc tol (k + 1) s).n_iter = s.n_iter ↔ ¬ errGt s.err tol) := by
  constructor
  · rw [body_err]
    congr 1
    ring
  · rw [loop]
    by_cases h : errGt s.err tol
    · rw [if_pos h]
      have h1 := loop_n_iter_ge ws nr nc tol k (body ws nr nc s)
      rw [body_n_iter] at h1
      constructor
      · intro h2; omega
      · intro h2; exact absurd h h2
    · rw [if_neg h]
      simp [h]

/-- C1 (amended): for every fitted estimator and dense input `X`,
`transform` ignores the fitted statistics and runs the procedure fresh on
`X` with the procedure's own defaults — centering true, variance-scaling
true regardless of the constructor's `with_std` option, `max_iter = 50`,
`tol = 1e-6`. -/
theorem C1_transform_runs_fresh_with_defaults (sc : TwoWayStandardScaler)
    (st : FitStats) (X : Mat) (h : sc.fitted = some st) :
    transform sc (.dense X) = .ok (twoWayStandardize X true true 50 (1 / 1000000)) := by
  simp [transform, h, checkArray]

/-- C1 (amended) witness at a concrete fitted estimator and input. -/
theorem C1_transform_runs_fresh_with_defaults_witness :
    transform ⟨true, false, true, some ⟨[5], none, [3], none, some [2], some [4], 1, 1⟩⟩
        (.dense [[1, 2], [3, 4]])
      = .ok (twoWayStandardize [[1, 2], [3, 4]] true true 50 (1 / 1000000)) :=
  C1_transform_runs_fresh_with_defaults _ _ _ rfl

/-- C2: a sparse input is rejected with the `UnsupportedInputKind` error
(and no other) by the free function `two_way_standardize` and by the
estimator methods `fit`, `transform` and `inverse_transform`. -/
theorem C2_sparse_rejected (M : Mat) (wm ws : Bool) (mi : ℕ) (tol : ℝ)
    (sc : TwoWayStandardScaler) (st : FitStats) (copy : Bool)
    (h : sc.fitted = some st) :
    two_way_standardize (.sparse M) wm ws mi tol = .error .unsupportedInputKind
    ∧ fit sc (.sparse M) = .error .unsupportedInputKind
    ∧ transform sc (.sparse M) = .error .unsupportedInputKind
    ∧ inverse_transform sc (.sparse M) copy = .error .unsupportedInputKind := by
  refine ⟨rfl, rfl, ?_, ?_⟩
  · simp [transform, h, checkArray]
  · simp [inverse_transform, h]

/-- C2 witness at a concrete sparse input and fitted estimator. -/
theorem C2_sparse_rejected_witness :
    two_way_standardize (.sparse [[1]]) true true 50 (1 / 1000000)
        = .error .unsupportedInputKind
    ∧ fit ⟨true, true, true, some ⟨[5], none, [3], none, some [2], some [4], 1, 1⟩⟩
        (.sparse [[1]]) = .error .unsupportedInputKind
    ∧ transform ⟨true, true, true, some ⟨[5], none, [3], none, some [2], some [4], 1, 1⟩⟩
        (.sparse [[1]]) = .error .unsupportedInputKind
    ∧ inverse_transform ⟨true, true, true, some ⟨[5], none, [3], none, some [2], some [4], 1, 1⟩⟩
        (.sparse [[1]]) false = .error .unsupportedInputKind :=
  C2_sparse_rejected [[1]] true true 50 (1 / 1000000) _ _ false rfl

/-- C6: on an estimator on which `fit` has not run, both `transform` and
`inverse_transform` fail with `NotFittedError`, for every input. -/
theorem C6_not_fitted_guard (sc : TwoWayStandardScaler) (X : Input)
    (copy : Bool) (h : sc.fitted = none) :
    transform sc X = .error .notFitted
    ∧ inverse_transform sc X copy = .error .notFitted := by
  constructor
  · simp [transform, h]
  · simp [inverse_transform, h]

/-- C6 witness on a fresh unfitted estimator. -/
theorem C6_not_fitted_guard_witness :
    transform ⟨true, true, true, none⟩ (.dense [[1, 2]]) = .error .notFitted
    ∧ inverse_transform ⟨true, true, true, none⟩ (.dense [[1, 2]]) false
        = .error .notFitted :=
  C6_not_fitted_guard _ _ false rfl

/-- C8: every `inverse_transform` call on a fitted estimator with a dense
input emits exactly the one approximation warning, whatever the input
values and the `copy` flag. -/
theorem C8_exactly_one_warning (sc : TwoWayStandardScaler) (st : FitStats)
    (M : Mat) (copy : Bool) (h : sc.fitted = some st) :
    (inverse_transform sc (.dense M) copy).map (fun out => out.warnings)
        = .ok [approxWarning]
    ∧ (inverse_transform sc (.dense M) copy).map (fun out => out.warnings.length)
        = .ok 1 := by
  constructor <;> simp [inverse_transform, h, Except.map]

/-- C8 witness at a concrete fitted estimator and input. -/
theorem C8_exactly_one_warning_witness :
    (inverse_transform
        ⟨true, true, true, some ⟨[5], none, [3], none, some [2], some [4], 1, 1⟩⟩
        (.dense [[1]]) false).map (fun out => out.warnings) = .ok [approxWarning]
    ∧ (inverse_transform
        ⟨true, true, true, some ⟨[5], none, [3], none, some [2], some [4], 1, 1⟩⟩
        (.dense [[1]]) false).map (fun out => out.warnings.length) = .ok 1 :=
  C8_exactly_one_warning _ _ [[1]] false rfl

/-! ### View-state lemmas for `inverse_transform` -/

lemma viewMul_transposed (a : ArrSt) (v : List ℝ) :
    (viewMul a v).transposed = a.transposed := by
  unfold viewMul
  split <;> rfl

lemma viewAdd_transposed (a : ArrSt) (v : List ℝ) :
    (viewAdd a v).transposed = a.transposed := by
  unfold viewAdd
  split <;> rfl

lemma invRun_transposed (wm ws : Bool) (st : FitStats) (M : Mat) :
    (invRun wm ws st M).transposed = false := by
  unfold invRun viewT
  cases wm <;> cases ws <;>
    simp [viewMul_transposed, viewAdd_transposed]

/-- C10: on a fitted estimator, `inverse_transform` with the default
`copy=False` performs its scale multiplications and mean additions in
place on the caller's float array: after the call the caller's matrix
holds the transformed values and the returned matrix is that same buffer;
with `copy=True` the caller's matrix keeps its original contents. -/
theorem C10_inplace_without_copy (sc : TwoWayStandardScaler) (st : FitStats)
    (M : Mat) (h : sc.fitted = some st) :
    inverse_transform sc (.dense M) false =
      .ok { result := (invRun sc.with_mean sc.with_std st M).buf,
            warnings := [approxWarning],
            callerAfter := (invRun sc.with_mean sc.with_std st M).buf }
    ∧ inverse_transform sc (.dense M) true =
      .ok { result := (invRun sc.with_mean sc.with_std st M).buf,
            warnings := [approxWarning],
            callerAfter := M } := by
  have hm : materialize (invRun sc.with_mean sc.with_std st M)
      = (invRun sc.with_mean sc.with_std st M).buf := by
    simp [materialize, invRun_transposed]
  constructor <;> simp [inverse_transform, h, hm]

/-- C10 witness at a concrete fitted estimator and input. -/
theorem C10_inplace_without_copy_witness :
    inverse_transform
        ⟨true, true, true, some ⟨[5], none, [3], none, some [2], some [4], 1, 1⟩⟩
        (.dense [[1]]) false =
      .ok { result := (invRun true true
              ⟨[5], none, [3], none, some [2], some [4], 1, 1⟩ [[1]]).buf,
            warnings := [approxWarning],
            callerAfter := (invRun true true
              ⟨[5], none, [3], none, some [2], some [4], 1, 1⟩ [[1]]).buf }
    ∧ inverse_transform
        ⟨true, true, true, some ⟨[5], none, [3], none, some [2], some [4], 1, 1⟩⟩
        (.dense [[1]]) true =
      .ok { result := (invRun true true
              ⟨[5], none, [3], none, some [2], some [4], 1, 1⟩ [[1]]).buf,
            warnings := [approxWarning],
            callerAfter := [[1]] } :=
  C10_inplace_without_copy _ _ [[1]] rfl

/-! ### List-indexing helpers -/

lemma getD_map_lt {α β : Type} (f : α → β) (l : List α) (i : ℕ)
    (h : i < l.length) (d : β) (e : α) :
    (l.map f).getD i d = f (l.getD i e) := by
  rw [List.getD_eq_getElem?_getD, List.getD_eq_getElem?_getD, List.getElem?_map]
  rw [List.getElem?_eq_getElem h]
  simp

lemma getD_range_lt (n i : ℕ) (h : i < n) (d : ℕ) :
    (List.range n).getD i d = i := by
  rw [List.getD_eq_getElem?_getD, List.getElem?_range h]
  rfl

lemma getD_zipWith_lt {α β γ : Type} (f : α → β → γ) (l : List α)
    (m : List β) (i : ℕ) (h1 : i < l.length) (h2 : i < m.length)
    (d : γ) (d1 : α) (d2 : β) :
    (List.zipWith f l m).getD i d = f (l.getD i d1) (m.getD i d2) := by
  have hz : i < (List.zipWith f l m).length := by
    rw [List.length_zipWith]; omega
  rw [List.getD_eq_getElem?_getD, List.getD_eq_getElem?_getD,
    List.getD_eq_getElem?_getD]
  rw [List.getElem?_eq_getElem hz, List.getElem?_eq_getElem h1,
    List.getElem?_eq_getElem h2]
  simp [List.getElem_zipWith]

/-! ### Shape lemmas -/

lemma length_transpose (M : Mat) : (transpose M).length = ncols M := by
  simp [transpose]

lemma ncols_of_rect {M : Mat} {r c : ℕ} (h : rect M r c) (hr : 1 ≤ r) :
    ncols M = c := by
  obtain ⟨hlen, hrow⟩ := h
  cases M with
  | nil => simp at hlen; omega
  | cons x xs => exact hrow x (by simp) ▸ rfl

lemma rect_transpose {M : Mat} {r c : ℕ} (h : rect M r c) (hr : 1 ≤ r) :
    rect (transpose M) c r := by
  constructor
  · rw [length_transpose, ncols_of_rect h hr]
  · intro row hrow
    simp only [transpose, List.mem_map] at hrow
    obtain ⟨j, _, rfl⟩ := hrow
    simp [h.1]

lemma scaleRow_length (ws : Bool) (l : List ℝ) :
    (scaleRow ws l).length = l.length := by
  unfold scaleRow
  split <;> simp

lemma rect_scaleRows {M : Mat} {r c : ℕ} (ws : Bool) (h : rect M r c) :
    rect (scaleRows ws M) r c := by
  constructor
  · simp [scaleRows, h.1]
  · intro row hrow
    simp only [scaleRows, List.mem_map] at hrow
    obtain ⟨l, hl, rfl⟩ := hrow
    rw [scaleRow_length]
    exact h.2 l hl

/-! ### Entry lemmas -/

/-- Entry `(i, j)` of a matrix. -/
def entry (M : Mat) (i j : ℕ) : ℝ := (M.getD i []).getD j 0

lemma getD_transpose {M : Mat} {r c : ℕ} (h : rect M r c) (hr : 1 ≤ r)
    {i : ℕ} (hi : i < c) :
    (transpose M).getD i [] = M.map (fun row => row.getD i 0) := by
  unfold transpose
  rw [getD_map_lt _ _ _ (by simp [ncols_of_rect h hr, hi]) _ 0]
  rw [getD_range_lt _ _ (by rw [ncols_of_rect h hr]; exact hi)]

lemma entry_transpose {M : Mat} {r c : ℕ} (h : rect M r c) (hr : 1 ≤ r)
    {i j : ℕ} (hi : i < c) (hj : j < r) :
    entry (transpose M) i j = entry M j i := by
  unfold entry
  rw [getD_transpose h hr hi]
  rw [getD_map_lt _ _ _ (by rw [h.1]; exact hj) _ []]

lemma loop_rect (ws : Bool) (nr nc : ℕ) (tol : ℝ) {r c : ℕ}
    (hr : 1 ≤ r) (hc : 1 ≤ c) :
    ∀ (k : ℕ) (s : LoopSt), rect s.xrow c r →
      rect (loop ws nr nc tol k s).xrow c r
  | 0, s, h => by simpa [loop] using h
  | k + 1, s, h => by
    rw [loop]
    by_cases hg : errGt s.err tol
    · rw [if_pos hg]
      refine loop_rect ws nr nc tol hr hc k _ ?_
      show rect (body ws nr nc s).xrow c r
      have h1 : rect (transpose s.xrow) r c := rect_transpose h hc
      have h2 : rect (scaleRows ws (transpose s.xrow)) r c := rect_scaleRows ws h1
      have h3 : rect (transpose (scaleRows ws (transpose s.xrow))) c r :=
        rect_transpose h2 hr
      exact rect_scaleRows ws h3
    · rw [if_neg hg]; exact h

/-- C9: `two_way_standardize` preserves the shape of its dense input —
an `r × c` matrix in, an `r × c` matrix out, for every parameter
setting. -/
theorem C9_shape_preserved (X : Mat) (wm ws : Bool) (mi : ℕ) (tol : ℝ)
    {r c : ℕ} (hX : rect X r c) (hr : 1 ≤ r) (hc : 1 ≤ c) :
    rect (twoWayStandardize X wm ws mi tol) r c := by
  unfold twoWayStandardize twoWayRun
  have h0 : rect (initSt X).xrow c r := rect_transpose hX hr
  have h1 := loop_rect ws X.length (ncols X) tol hr hc (mi + 1) (initSt X) h0
  exact rect_transpose h1 hc

/-- C9 witness: a concrete 2 × 2 input yields a 2 × 2 output. -/
theorem C9_shape_preserved_witness :
    rect [[1, 2], [3, 4]] 2 2
    ∧ rect (twoWayStandardize [[1, 2], [3, 4]] true true 50 (1 / 1000000)) 2 2 := by
  have h : rect [[(1 : ℝ), 2], [3, 4]] 2 2 := by
    refine ⟨rfl, ?_⟩
    intro row hrow
    simp only [List.mem_cons, List.not_mem_nil, or_false] at hrow
    rcases hrow with rfl | rfl <;> rfl
  exact ⟨h, C9_shape_preserved _ _ _ _ _ h (by norm_num) (by norm_num)⟩

/-! ### Evaluation of `scaleRow` on small concrete rows -/

lemma sqrt_of_sq (q x : ℝ) (hq : 0 ≤ q) (hx : x = q ^ 2) :
    Real.sqrt x = q := by rw [hx, Real.sqrt_sq hq]

lemma mean_pair (a b : ℝ) : mean [a, b] = (a + b) / 2 := by
  simp [mean]
  try ring

lemma variance_pair (a b : ℝ) : variance [a, b] = ((b - a) / 2) ^ 2 := by
  unfold variance
  rw [mean_pair]
  simp
  ring

lemma handleZeros_of_ne {s : ℝ} (h : s ≠ 0) : handleZeros s = s := by
  unfold handleZeros
  rw [if_neg h]

lemma scaleRow_true_pair_lt {a b : ℝ} (h : a < b) :
    scaleRow true [a, b] = [-1, 1] := by
  have hb : (0 : ℝ) < (b - a) / 2 := by linarith
  have hs : Real.sqrt (variance [a, b]) = (b - a) / 2 :=
    sqrt_of_sq _ _ hb.le (variance_pair a b)
  simp only [scaleRow, if_true, hs, handleZeros_of_ne hb.ne', mean_pair,
    List.map_cons, List.map_nil]
  rw [List.cons.injEq, List.cons.injEq]
  refine ⟨?_, ?_, rfl⟩ <;> rw [div_eq_iff hb.ne'] <;> ring

lemma scaleRow_true_pair_gt {a b : ℝ} (h : b < a) :
    scaleRow true [a, b] = [1, -1] := by
  have hb : (0 : ℝ) < (a - b) / 2 := by linarith
  have hv : variance [a, b] = ((a - b) / 2) ^ 2 := by
    rw [variance_pair]; ring
  have hs : Real.sqrt (variance [a, b]) = (a - b) / 2 :=
    sqrt_of_sq _ _ hb.le hv
  simp only [scaleRow, if_true, hs, handleZeros_of_ne hb.ne', mean_pair,
    List.map_cons, List.map_nil]
  rw [List.cons.injEq, List.cons.injEq]
  refine ⟨?_, ?_, rfl⟩ <;> rw [div_eq_iff hb.ne'] <;> ring

lemma scaleRow_true_pair_same (a : ℝ) : scaleRow true [a, a] = [0, 0] := by
  have hv : variance [a, a] = 0 := by
    rw [variance_pair]; ring
  have hs : Real.sqrt (variance [a, a]) = 0 := by
    rw [hv, Real.sqrt_zero]
  have hz : handleZeros (0 : ℝ) = 1 := by
    unfold handleZeros
    rw [if_pos rfl]
  simp only [scaleRow, if_true, hs, hz, mean_pair, List.map_cons, List.map_nil]
  norm_num

lemma scaleRow_false_pair (a b : ℝ) :
    scaleRow false [a, b] = [(a - b) / 2, (b - a) / 2] := by
  simp only [scaleRow, mean_pair, List.map_cons, List.map_nil, Bool.false_eq_true,
    if_false]
  rw [List.cons.injEq, List.cons.injEq]
  refine ⟨by ring, by ring, rfl⟩

/-- C4 (amended): in every iteration of the normalization loop, the
column-working matrix is recomputed by standardizing the TRANSPOSE of the
row-working matrix along its second axis — i.e. one mean/scale per COLUMN
of the row-working matrix (per former row of the input), with no transpose
applied afterwards; the row-working matrix is then recomputed from the
transpose of the new column-working matrix in the same fashion; and the
procedure returns the transpose of the final row-working matrix. -/
theorem C4_iteration_structure (ws : Bool) (nr nc : ℕ) (s : LoopSt)
    (X : Mat) (wm : Bool) (mi : ℕ) (tol : ℝ) {r c : ℕ}
    (h : rect s.xrow c r) (hc : 1 ≤ c) :
    (body ws nr nc s).xcol = scaleRows ws (transpose s.xrow)
    ∧ (body ws nr nc s).xrow = scaleRows ws (transpose (body ws nr nc s).xcol)
    ∧ (∀ i, i < r →
        ((body ws nr nc s).xcol).getD i []
          = scaleRow ws (s.xrow.map (fun row => row.getD i 0)))
    ∧ twoWayStandardize X wm ws mi tol = transpose (twoWayRun X ws mi tol).xrow := by
  refine ⟨rfl, rfl, ?_, rfl⟩
  intro i hi
  show (scaleRows ws (transpose s.xrow)).getD i [] = _
  have hlen : i < (transpose s.xrow).length := by
    rw [length_transpose, ncols_of_rect h hc]; exact hi
  unfold scaleRows
  rw [getD_map_lt (scaleRow ws) (transpose s.xrow) i hlen [] []]
  rw [getD_transpose h hc hi]

/-- C4 (amended) witness at a concrete loop state. -/
theorem C4_iteration_structure_witness :
    (body true 2 2 ⟨[[(1 : ℝ), 2], [3, 4]], [], [], [], none, 0⟩).xcol
        = scaleRows true (transpose [[(1 : ℝ), 2], [3, 4]])
    ∧ (body true 2 2 ⟨[[(1 : ℝ), 2], [3, 4]], [], [], [], none, 0⟩).xcol.getD 0 []
        = scaleRow true ([[(1 : ℝ), 2], [3, 4]].map (fun row => row.getD 0 0)) := by
  have h : rect [[(1 : ℝ), 2], [3, 4]] 2 2 := by
    refine ⟨rfl, ?_⟩
    intro row hrow
    simp only [List.mem_cons, List.not_mem_nil, or_false] at hrow
    rcases hrow with rfl | rfl <;> rfl
  obtain ⟨h1, _, h3, _⟩ :=
    C4_iteration_structure true 2 2 ⟨[[(1 : ℝ), 2], [3, 4]], [], [], [], none, 0⟩
      [[(1 : ℝ), 2], [3, 4]] true 50 (1 / 1000000) h (by norm_num)
  exact ⟨h1, h3 0 (by norm_num)⟩

/-- C4 counterexample: at a concrete loop state, the column-working matrix
the iteration actually computes differs from "standardize the row-working
matrix along its second axis (one mean/scale per row of the row-working
matrix), then transpose", which is what the claim states. -/
theorem C4_counterexample :
    (body true 2 2 ⟨[[(0 : ℝ), 0], [4, 0]], [], [], [], none, 0⟩).xcol
      ≠ transpose (scaleRows true [[(0 : ℝ), 0], [4, 0]]) := by
  have hL : (body true 2 2 ⟨[[(0 : ℝ), 0], [4, 0]], [], [], [], none, 0⟩).xcol
      = [[-1, 1], [0, 0]] := by
    show scaleRows true (transpose [[(0 : ℝ), 0], [4, 0]]) = _
    have ht : transpose [[(0 : ℝ), 0], [4, 0]] = [[0, 4], [0, 0]] := rfl
    rw [ht]
    show [scaleRow true [0, 4], scaleRow true [0, 0]] = _
    rw [scaleRow_true_pair_lt (by norm_num), scaleRow_true_pair_same]
  have hR : transpose (scaleRows true [[(0 : ℝ), 0], [4, 0]]) = [[0, 1], [0, -1]] := by
    have h1 : scaleRows true [[(0 : ℝ), 0], [4, 0]] = [[0, 0], [1, -1]] := by
      show [scaleRow true [0, 0], scaleRow true [4, 0]] = _
      rw [scaleRow_true_pair_same, scaleRow_true_pair_gt (by norm_num)]
    rw [h1]
    rfl
  rw [hL, hR]
  intro hEq
  rw [List.cons.injEq] at hEq
  have h2 := hEq.1
  rw [List.cons.injEq] at h2
  have h3 : (-1 : ℝ) = 0 := h2.1
  norm_num at h3

/-! ### Broadcast-operation lemmas for `inverse_transform` -/

lemma rect_getD_length {B : Mat} {r c : ℕ} (h : rect B r c) {i : ℕ}
    (hi : i < r) : (B.getD i []).length = c := by
  have hm : B.getD i [] ∈ B := by
    rw [List.getD_eq_getElem?_getD,
      List.getElem?_eq_getElem (show i < B.length by rw [h.1]; exact hi)]
    exact List.getElem_mem _
  exact h.2 _ hm

lemma rect_rowBroadcast (g : ℝ → ℝ → ℝ) (v : List ℝ) (B : Mat) {r c : ℕ}
    (h : rect B r c) (hv : v.length = r) :
    rect (List.zipWith (fun s row => row.map (fun x => g x s)) v B) r c := by
  constructor
  · rw [List.length_zipWith, hv, h.1, min_self]
  · intro row hrow
    rw [List.mem_iff_getElem] at hrow
    obtain ⟨i, hi, rfl⟩ := hrow
    rw [List.getElem_zipWith]
    rw [List.length_map]
    refine h.2 _ (List.getElem_mem _)

lemma rect_colBroadcast (g : ℝ → ℝ → ℝ) (B : Mat) (v : List ℝ) {r c : ℕ}
    (h : rect B r c) (hv : v.length = c) :
    rect (B.map (fun row => List.zipWith (fun x s => g x s) row v)) r c := by
  constructor
  · rw [List.length_map, h.1]
  · intro row hrow
    simp only [List.mem_map] at hrow
    obtain ⟨l, hl, rfl⟩ := hrow
    rw [List.length_zipWith, h.2 l hl, hv, min_self]

lemma entry_rowBroadcast (g : ℝ → ℝ → ℝ) (v : List ℝ) (B : Mat) {r c : ℕ}
    (h : rect B r c) (hv : v.length = r) {i j : ℕ} (hi : i < r) (hj : j < c) :
    entry (List.zipWith (fun s row => row.map (fun x => g x s)) v B) i j
      = g (entry B i j) (v.getD i 0) := by
  unfold entry
  rw [getD_zipWith_lt _ _ _ _ (by rw [hv]; exact hi)
    (by rw [h.1]; exact hi) [] 0 []]
  rw [getD_map_lt _ _ _ (by rw [rect_getD_length h hi]; exact hj) 0 0]

lemma entry_colBroadcast (g : ℝ → ℝ → ℝ) (B : Mat) (v : List ℝ) {r c : ℕ}
    (h : rect B r c) (hv : v.length = c) {i j : ℕ} (hi : i < r) (hj : j < c) :
    entry (B.map (fun row => List.zipWith (fun x s => g x s) row v)) i j
      = g (entry B i j) (v.getD j 0) := by
  unfold entry
  rw [getD_map_lt _ _ _ (by rw [h.1]; exact hi) [] []]
  rw [getD_zipWith_lt _ _ _ _ (by rw [rect_getD_length h hi]; exact hj)
    (by rw [hv]; exact hj) 0 0 0]

lemma invRun_buf_tt (st : FitStats) (M : Mat) :
    (invRun true true st M).buf =
      ((List.zipWith (fun s row => row.map (fun x => x + s)) st.row_mean_
          (List.zipWith (fun s row => row.map (fun x => x * s))
            (st.row_scale_.getD []) M)).map
        (fun row => List.zipWith (fun x s => x * s) row (st.col_scale_.getD []))).map
        (fun row => List.zipWith (fun x s => x + s) row st.col_mean_) := rfl

lemma invRun_buf_ft (st : FitStats) (M : Mat) :
    (invRun false true st M).buf =
      (List.zipWith (fun s row => row.map (fun x => x * s))
          (st.row_scale_.getD []) M).map
        (fun row => List.zipWith (fun x s => x * s) row (st.col_scale_.getD [])) := rfl

lemma invRun_buf_tf (st : FitStats) (M : Mat) :
    (invRun true false st M).buf =
      (List.zipWith (fun s row => row.map (fun x => x + s)) st.row_mean_ M).map
        (fun row => List.zipWith (fun x s => x + s) row st.col_mean_) := rfl

lemma invRun_buf_ff (st : FitStats) (M : Mat) :
    (invRun false false st M).buf = M := rfl

/-- C7: on a fitted estimator with a dense input, `inverse_transform`
computes its value purely from the fitted statistics (never the iterative
procedure): working on the transposed matrix, multiply by the fitted row
scale and add the fitted row mean, transpose back, multiply by the fitted
column scale and add the fitted column mean — the multiplications only
when `with_std` is set, the additions only when `with_mean` is set.
Entrywise the returned matrix is
`(X i j * rs i + rm i) * cs j + cm j` with the gated factors. -/
theorem C7_inverse_transform_formula (sc : TwoWayStandardScaler)
    (st : FitStats) (M : Mat) (copy : Bool) {r c : ℕ} (rs cs : List ℝ)
    (h : sc.fitted = some st) (hM : rect M r c)
    (hrm : st.row_mean_.length = r) (hcm : st.col_mean_.length = c)
    (hrs : sc.with_std = true → st.row_scale_ = some rs ∧ rs.length = r)
    (hcs : sc.with_std = true → st.col_scale_ = some cs ∧ cs.length = c) :
    inverse_transform sc (.dense M) copy =
      .ok { result := (invRun sc.with_mean sc.with_std st M).buf,
            warnings := [approxWarning],
            callerAfter := if copy then M else (invRun sc.with_mean sc.with_std st M).buf }
    ∧ ∀ i j, i < r → j < c →
        entry (invRun sc.with_mean sc.with_std st M).buf i j =
          (entry M i j * (if sc.with_std then rs.getD i 0 else 1)
            + (if sc.with_mean then st.row_mean_.getD i 0 else 0))
          * (if sc.with_std then cs.getD j 0 else 1)
          + (if sc.with_mean then st.col_mean_.getD j 0 else 0) := by
  constructor
  · have hm : materialize (invRun sc.with_mean sc.with_std st M)
        = (invRun sc.with_mean sc.with_std st M).buf := by
      simp [materialize, invRun_transposed]
    simp [inverse_transform, h, hm]
  · intro i j hi hj
    cases hwm : sc.with_mean <;> cases hws : sc.with_std
    · rw [invRun_buf_ff]
      simp
    · obtain ⟨hrs1, hrs2⟩ := hrs hws
      obtain ⟨hcs1, hcs2⟩ := hcs hws
      rw [invRun_buf_ft, hrs1, hcs1, Option.getD_some, Option.getD_some]
      have hB1 := rect_rowBroadcast (fun x s => x * s) rs M hM hrs2
      rw [entry_colBroadcast (fun x s => x * s) _ cs hB1 hcs2 hi hj]
      rw [entry_rowBroadcast (fun x s => x * s) rs M hM hrs2 hi hj]
      simp
    · rw [invRun_buf_tf]
      have hB1 := rect_rowBroadcast (fun x s => x + s) st.row_mean_ M hM hrm
      rw [entry_colBroadcast (fun x s => x + s) _ st.col_mean_ hB1 hcm hi hj]
      rw [entry_rowBroadcast (fun x s => x + s) st.row_mean_ M hM hrm hi hj]
      simp
    · obtain ⟨hrs1, hrs2⟩ := hrs hws
      obtain ⟨hcs1, hcs2⟩ := hcs hws
      rw [invRun_buf_tt, hrs1, hcs1, Option.getD_some, Option.getD_some]
      have hB1 := rect_rowBroadcast (fun x s => x * s) rs M hM hrs2
      have hB2 := rect_rowBroadcast (fun x s => x + s) st.row_mean_ _ hB1 hrm
      have hB3 := rect_colBroadcast (fun x s => x * s) _ cs hB2 hcs2
      rw [entry_colBroadcast (fun x s => x + s) _ st.col_mean_ hB3 hcm hi hj]
      rw [entry_colBroadcast (fun x s => x * s) _ cs hB2 hcs2 hi hj]
      rw [entry_rowBroadcast (fun x s => x + s) st.row_mean_ _ hB1 hrm hi hj]
      rw [entry_rowBroadcast (fun x s => x * s) rs M hM hrs2 hi hj]
      simp

/-! ### Loop unfolding equations -/

lemma loop_succ (ws : Bool) (nr nc : ℕ) (tol : ℝ) (k : ℕ) (s : LoopSt) :
    loop ws nr nc tol (k + 1) s =
      if errGt s.err tol then loop ws nr nc tol k (body ws nr nc s) else s := by
  simp only [loop]

lemma loop_one (ws : Bool) (nr nc : ℕ) (tol : ℝ) (s : LoopSt) :
    loop ws nr nc tol 1 s =
      if errGt s.err tol then body ws nr nc s else s := by
  rw [show (1 : ℕ) = 0 + 1 from rfl]
  simp only [loop]

/-! ### Evaluation of `scaleRow` on concrete four-entry rows -/

lemma mean_quad (a b c d : ℝ) : mean [a, b, c, d] = (a + b + c + d) / 4 := by
  simp [mean]
  try ring

lemma scaleRow_true_quad {a b c d q : ℝ} (hq : 0 < q)
    (hv : variance [a, b, c, d] = q ^ 2) :
    scaleRow true [a, b, c, d] =
      [(a - (a + b + c + d) / 4) / q, (b - (a + b + c + d) / 4) / q,
       (c - (a + b + c + d) / 4) / q, (d - (a + b + c + d) / 4) / q] := by
  have hs : Real.sqrt (variance [a, b, c, d]) = q := sqrt_of_sq _ _ hq.le hv
  simp only [scaleRow, if_true, hs, handleZeros_of_ne hq.ne', mean_quad,
    List.map_cons, List.map_nil]

lemma scaleRow_true_zero_quad : scaleRow true [(0 : ℝ), 0, 0, 0] = [0, 0, 0, 0] := by
  have hv : variance [(0 : ℝ), 0, 0, 0] = 0 := by
    unfold variance
    rw [mean_quad]
    norm_num
  have hs : Real.sqrt (variance [(0 : ℝ), 0, 0, 0]) = 0 := by
    rw [hv, Real.sqrt_zero]
  have hz : handleZeros (0 : ℝ) = 1 := by
    unfold handleZeros
    rw [if_pos rfl]
  simp only [scaleRow, if_true, hs, hz, mean_quad, List.map_cons, List.map_nil]
  norm_num

lemma scaleRow_false_quad (a b c d : ℝ) :
    scaleRow false [a, b, c, d] =
      [a - (a + b + c + d) / 4, b - (a + b + c + d) / 4,
       c - (a + b + c + d) / 4, d - (a + b + c + d) / 4] := by
  simp only [scaleRow, Bool.false_eq_true, if_false, mean_quad,
    List.map_cons, List.map_nil]

/-! ### A concrete run of the procedure

On `cexX = [[0, 6, 8, 14], [0, 0, 0, 0]]` the loop converges after three
iterations, both with and without variance scaling, and the two results
differ — the working data for the counterexamples below. -/

def cexX : Mat := [[0, 6, 8, 14], [0, 0, 0, 0]]

/-- Row-working matrix from iteration 1 on (run with `with_std = true`). -/
def cexRA : Mat := [[-1, 1], [-1, 1], [1, -1], [1, -1]]

/-- Column-working matrix after iteration 1 (`with_std = true`). -/
noncomputable def cexCA1 : Mat := [[-7 / 5, -1 / 5, 1 / 5, 7 / 5], [0, 0, 0, 0]]

/-- Column-working matrix from iteration 2 on (`with_std = true`). -/
def cexCA2 : Mat := [[-1, -1, 1, 1], [1, 1, -1, -1]]

/-- Row-working matrix from iteration 1 on (run with `with_std = false`). -/
noncomputable def cexRB : Mat :=
  [[-7 / 2, 7 / 2], [-1 / 2, 1 / 2], [1 / 2, -1 / 2], [7 / 2, -7 / 2]]

/-- Column-working matrix after iteration 1 (`with_std = false`). -/
def cexCB1 : Mat := [[-7, -1, 1, 7], [0, 0, 0, 0]]

/-- Column-working matrix from iteration 2 on (`with_std = false`). -/
noncomputable def cexCB2 : Mat :=
  [[-7 / 2, -1 / 2, 1 / 2, 7 / 2], [7 / 2, 1 / 2, -1 / 2, -7 / 2]]

lemma evalA_xcol1 : scaleRows true (transpose (transpose cexX)) = cexCA1 := by
  rw [show transpose (transpose cexX) = cexX from rfl]
  show [scaleRow true [0, 6, 8, 14], scaleRow true [0, 0, 0, 0]] = cexCA1
  rw [scaleRow_true_quad (q := 5) (by norm_num)
    (by unfold variance; rw [mean_quad]; norm_num), scaleRow_true_zero_quad]
  unfold cexCA1
  norm_num

lemma evalA_xrow1 : scaleRows true (transpose cexCA1) = cexRA := by
  rw [show transpose cexCA1 = [[-7 / 5, 0], [-1 / 5, 0], [1 / 5, 0], [7 / 5, 0]] from rfl]
  show [scaleRow true [-7 / 5, 0], scaleRow true [-1 / 5, 0],
    scaleRow true [1 / 5, 0], scaleRow true [7 / 5, 0]] = cexRA
  rw [scaleRow_true_pair_lt (a := -7 / 5) (b := 0) (by norm_num),
    scaleRow_true_pair_lt (a := -1 / 5) (b := 0) (by norm_num),
    scaleRow_true_pair_gt (a := 1 / 5) (b := 0) (by norm_num),
    scaleRow_true_pair_gt (a := 7 / 5) (b := 0) (by norm_num)]
  rfl

lemma evalA_xcol2 : scaleRows true (transpose cexRA) = cexCA2 := by
  rw [show transpose cexRA = [[-1, -1, 1, 1], [1, 1, -1, -1]] from rfl]
  show [scaleRow true [-1, -1, 1, 1], scaleRow true [1, 1, -1, -1]] = cexCA2
  rw [scaleRow_true_quad (q := 1) (by norm_num)
    (by unfold variance; rw [mean_quad]; norm_num),
    scaleRow_true_quad (q := 1) (by norm_num)
    (by unfold variance; rw [mean_quad]; norm_num)]
  unfold cexCA2
  norm_num

lemma evalA_xrow2 : scaleRows true (transpose cexCA2) = cexRA := by
  rw [show transpose cexCA2 = [[-1, 1], [-1, 1], [1, -1], [1, -1]] from rfl]
  show [scaleRow true [-1, 1], scaleRow true [-1, 1],
    scaleRow true [1, -1], scaleRow true [1, -1]] = cexRA
  rw [scaleRow_true_pair_lt (a := -1) (b := 1) (by norm_num),
    scaleRow_true_pair_gt (a := 1) (b := -1) (by norm_num)]
  rfl

lemma evalA_fro1r : fro (matSub (transpose cexX) cexRA) = Real.sqrt 272 := by
  rw [show transpose cexX = [[0, 0], [6, 0], [8, 0], [14, 0]] from rfl]
  norm_num [fro, matSub, cexRA]

lemma evalA_fro1c : fro (matSub cexX cexCA1) = Real.sqrt 260 := by
  norm_num [fro, matSub, cexX, cexCA1]

lemma evalA_fro2c : fro (matSub cexCA1 cexCA2) = Real.sqrt (28 / 5) := by
  norm_num [fro, matSub, cexCA1, cexCA2]

lemma evalA_fro0r : fro (matSub cexRA cexRA) = 0 := by
  norm_num [fro, matSub, cexRA, Real.sqrt_zero]

lemma evalA_fro0c : fro (matSub cexCA2 cexCA2) = 0 := by
  norm_num [fro, matSub, cexCA2, Real.sqrt_zero]

/-- Loop state after iteration 1 on `cexX` with `with_std = true`. -/
noncomputable def stA1 : LoopSt :=
  ⟨cexRA, cexCA1, cexRA, cexCA1,
    some (1 / 2 * Real.sqrt 272 / 8 + 1 / 2 * Real.sqrt 260 / 8), 1⟩

/-- Loop state after iteration 2 on `cexX` with `with_std = true`. -/
noncomputable def stA2 : LoopSt :=
  ⟨cexRA, cexCA2, cexRA, cexCA2, some (1 / 2 * Real.sqrt (28 / 5) / 8), 2⟩

/-- Loop state after iteration 3 on `cexX` with `with_std = true`. -/
noncomputable def stA3 : LoopSt := ⟨cexRA, cexCA2, cexRA, cexCA2, some 0, 3⟩

lemma runA1 : body true 2 4 (initSt cexX) = stA1 := by
  refine LoopSt.ext ?_ ?_ ?_ ?_ ?_ ?_ <;> simp only [body, initSt, stA1]
  · rw [evalA_xcol1, evalA_xrow1]
  · exact evalA_xcol1
  · rw [evalA_xcol1, evalA_xrow1]
  · exact evalA_xcol1
  · rw [evalA_xcol1, evalA_xrow1, evalA_fro1r, evalA_fro1c]
    norm_num

lemma runA2 : body true 2 4 stA1 = stA2 := by
  refine LoopSt.ext ?_ ?_ ?_ ?_ ?_ ?_ <;> simp only [body, stA1, stA2]
  · rw [evalA_xcol2, evalA_xrow2]
  · exact evalA_xcol2
  · rw [evalA_xcol2, evalA_xrow2]
  · exact evalA_xcol2
  · rw [evalA_xcol2, evalA_xrow2, evalA_fro0r, evalA_fro2c]
    norm_num

lemma runA3 : body true 2 4 stA2 = stA3 := by
  refine LoopSt.ext ?_ ?_ ?_ ?_ ?_ ?_ <;> simp only [body, stA2, stA3]
  · rw [evalA_xcol2, evalA_xrow2]
  · exact evalA_xcol2
  · rw [evalA_xcol2, evalA_xrow2]
  · exact evalA_xcol2
  · rw [evalA_xcol2, evalA_xrow2, evalA_fro0r, evalA_fro0c]
    norm_num

lemma guardA1 : errGt stA1.err (1 / 1000000) := by
  show (1 / 2 * Real.sqrt 272 / 8 + 1 / 2 * Real.sqrt 260 / 8 : ℝ) > 1 / 1000000
  have h1 := Real.sqrt_le_sqrt (show (1 : ℝ) ≤ 272 by norm_num)
  rw [Real.sqrt_one] at h1
  have h2 := Real.sqrt_nonneg (260 : ℝ)
  linarith

lemma guardA2 : errGt stA2.err (1 / 1000000) := by
  show (1 / 2 * Real.sqrt (28 / 5) / 8 : ℝ) > 1 / 1000000
  have h1 := Real.sqrt_le_sqrt (show (1 : ℝ) ≤ 28 / 5 by norm_num)
  rw [Real.sqrt_one] at h1
  linarith

lemma guardA3 : ¬ errGt stA3.err (1 / 1000000) := by
  show ¬ ((0 : ℝ) > 1 / 1000000)
  norm_num

lemma runA : twoWayRun cexX true 50 (1 / 1000000) = stA3 := by
  show loop true 2 4 (1 / 1000000) (50 + 1) (initSt cexX) = stA3
  rw [loop_succ, if_pos (show errGt (initSt cexX).err (1 / 1000000) from trivial),
    runA1]
  rw [show (50 : ℕ) = 49 + 1 by norm_num, loop_succ, if_pos guardA1, runA2]
  rw [show (49 : ℕ) = 48 + 1 by norm_num, loop_succ, if_pos guardA2, runA3]
  rw [show (48 : ℕ) = 47 + 1 by norm_num, loop_succ, if_neg guardA3]

lemma evalB_xcol1 : scaleRows false (transpose (transpose cexX)) = cexCB1 := by
  rw [show transpose (transpose cexX) = cexX from rfl]
  show [scaleRow false [0, 6, 8, 14], scaleRow false [0, 0, 0, 0]] = cexCB1
  rw [scaleRow_false_quad, scaleRow_false_quad]
  unfold cexCB1
  norm_num

lemma evalB_xrow1 : scaleRows false (transpose cexCB1) = cexRB := by
  rw [show transpose cexCB1 = [[-7, 0], [-1, 0], [1, 0], [7, 0]] from rfl]
  show [scaleRow false [-7, 0], scaleRow false [-1, 0],
    scaleRow false [1, 0], scaleRow false [7, 0]] = cexRB
  rw [scaleRow_false_pair, scaleRow_false_pair, scaleRow_false_pair,
    scaleRow_false_pair]
  unfold cexRB
  norm_num

lemma evalB_xcol2 : scaleRows false (transpose cexRB) = cexCB2 := by
  rw [show transpose cexRB
    = [[-7 / 2, -1 / 2, 1 / 2, 7 / 2], [7 / 2, 1 / 2, -1 / 2, -7 / 2]] from rfl]
  show [scaleRow false [-7 / 2, -1 / 2, 1 / 2, 7 / 2],
    scaleRow false [7 / 2, 1 / 2, -1 / 2, -7 / 2]] = cexCB2
  rw [scaleRow_false_quad, scaleRow_false_quad]
  unfold cexCB2
  norm_num

lemma evalB_xrow2 : scaleRows false (transpose cexCB2) = cexRB := by
  rw [show transpose cexCB2
    = [[-7 / 2, 7 / 2], [-1 / 2, 1 / 2], [1 / 2, -1 / 2], [7 / 2, -7 / 2]] from rfl]
  show [scaleRow false [-7 / 2, 7 / 2], scaleRow false [-1 / 2, 1 / 2],
    scaleRow false [1 / 2, -1 / 2], scaleRow false [7 / 2, -7 / 2]] = cexRB
  rw [scaleRow_false_pair, scaleRow_false_pair, scaleRow_false_pair,
    scaleRow_false_pair]
  unfold cexRB
  norm_num

lemma evalB_fro1r : fro (matSub (transpose cexX) cexRB) = Real.sqrt 246 := by
  rw [show transpose cexX = [[0, 0], [6, 0], [8, 0], [14, 0]] from rfl]
  norm_num [fro, matSub, cexRB]

lemma evalB_fro1c : fro (matSub cexX cexCB1) = Real.sqrt 196 := by
  norm_num [fro, matSub, cexX, cexCB1]

lemma evalB_fro2c : fro (matSub cexCB1 cexCB2) = Real.sqrt 50 := by
  norm_num [fro, matSub, cexCB1, cexCB2]

lemma evalB_fro0r : fro (matSub cexRB cexRB) = 0 := by
  norm_num [fro, matSub, cexRB, Real.sqrt_zero]

lemma evalB_fro0c : fro (matSub cexCB2 cexCB2) = 0 := by
  norm_num [fro, matSub, cexCB2, Real.sqrt_zero]

/-- Loop state after iteration 1 on `cexX` with `with_std = false`. -/
noncomputable def stB1 : LoopSt :=
  ⟨cexRB, cexCB1, cexRB, cexCB1,
    some (1 / 2 * Real.sqrt 246 / 8 + 1 / 2 * Real.sqrt 196 / 8), 1⟩

/-- Loop state after iteration 2 on `cexX` with `with_std = false`. -/
noncomputable def stB2 : LoopSt :=
  ⟨cexRB, cexCB2, cexRB, cexCB2, some (1 / 2 * Real.sqrt 50 / 8), 2⟩

/-- Loop state after iteration 3 on `cexX` with `with_std = false`. -/
noncomputable def stB3 : LoopSt := ⟨cexRB, cexCB2, cexRB, cexCB2, some 0, 3⟩

lemma runB1 : body false 2 4 (initSt cexX) = stB1 := by
  refine LoopSt.ext ?_ ?_ ?_ ?_ ?_ ?_ <;> simp only [body, initSt, stB1]
  · rw [evalB_xcol1, evalB_xrow1]
  · exact evalB_xcol1
  · rw [evalB_xcol1, evalB_xrow1]
  · exact evalB_xcol1
  · rw [evalB_xcol1, evalB_xrow1, evalB_fro1r, evalB_fro1c]
    norm_num

lemma runB2 : body false 2 4 stB1 = stB2 := by
  refine LoopSt.ext ?_ ?_ ?_ ?_ ?_ ?_ <;> simp only [body, stB1, stB2]
  · rw [evalB_xcol2, evalB_xrow2]
  · exact evalB_xcol2
  · rw [evalB_xcol2, evalB_xrow2]
  · exact evalB_xcol2
  · rw [evalB_xcol2, evalB_xrow2, evalB_fro0r, evalB_fro2c]
    norm_num

lemma runB3 : body false 2 4 stB2 = stB3 := by
  refine LoopSt.ext ?_ ?_ ?_ ?_ ?_ ?_ <;> simp only [body, stB2, stB3]
  · rw [evalB_xcol2, evalB_xrow2]
  · exact evalB_xcol2
  · rw [evalB_xcol2, evalB_xrow2]
  · exact evalB_xcol2
  · rw [evalB_xcol2, evalB_xrow2, evalB_fro0r, evalB_fro0c]
    norm_num

lemma guardB1 : errGt stB1.err (1 / 1000000) := by
  show (1 / 2 * Real.sqrt 246 / 8 + 1 / 2 * Real.sqrt 196 / 8 : ℝ) > 1 / 1000000
  have h1 := Real.sqrt_le_sqrt (show (1 : ℝ) ≤ 246 by norm_num)
  rw [Real.sqrt_one] at h1
  have h2 := Real.sqrt_nonneg (196 : ℝ)
  linarith

lemma guardB2 : errGt stB2.err (1 / 1000000) := by
  show (1 / 2 * Real.sqrt 50 / 8 : ℝ) > 1 / 1000000
  have h1 := Real.sqrt_le_sqrt (show (1 : ℝ) ≤ 50 by norm_num)
  rw [Real.sqrt_one] at h1
  linarith

lemma guardB3 : ¬ errGt stB3.err (1 / 1000000) := by
  show ¬ ((0 : ℝ) > 1 / 1000000)
  norm_num

lemma runB : twoWayRun cexX false 50 (1 / 1000000) = stB3 := by
  show loop false 2 4 (1 / 1000000) (50 + 1) (initSt cexX) = stB3
  rw [loop_succ, if_pos (show errGt (initSt cexX).err (1 / 1000000) from trivial),
    runB1]
  rw [show (50 : ℕ) = 49 + 1 by norm_num, loop_succ, if_pos guardB1, runB2]
  rw [show (49 : ℕ) = 48 + 1 by norm_num, loop_succ, if_pos guardB2, runB3]
  rw [show (48 : ℕ) = 47 + 1 by norm_num, loop_succ, if_neg guardB3]

/-- C1 counterexample: on an estimator constructed with `with_std = false`,
`transform` does NOT return the procedure run with variance-scaling equal
to the constructor's option — it always runs with `with_std = true` (the
procedure's default), and on `cexX` the two runs differ. -/
theorem C1_counterexample :
    transform ⟨true, false, true, some ⟨[5], none, [3], none, some [2], some [4], 1, 1⟩⟩
        (.dense cexX)
      ≠ .ok (twoWayStandardize cexX true false 50 (1 / 1000000)) := by
  have hT : transform
      ⟨true, false, true, some ⟨[5], none, [3], none, some [2], some [4], 1, 1⟩⟩
      (.dense cexX)
      = .ok (twoWayStandardize cexX true true 50 (1 / 1000000)) := by
    simp [transform, checkArray]
  have hA : twoWayStandardize cexX true true 50 (1 / 1000000)
      = [[-1, -1, 1, 1], [1, 1, -1, -1]] := by
    show transpose (twoWayRun cexX true 50 (1 / 1000000)).xrow = _
    rw [runA]
    rfl
  have hB : twoWayStandardize cexX true false 50 (1 / 1000000)
      = [[-7 / 2, -1 / 2, 1 / 2, 7 / 2], [7 / 2, 1 / 2, -1 / 2, -7 / 2]] := by
    show transpose (twoWayRun cexX false 50 (1 / 1000000)).xrow = _
    rw [runB]
    rfl
  rw [hT, hA, hB]
  intro hEq
  rw [Except.ok.injEq] at hEq
  rw [List.cons.injEq] at hEq
  have h2 := hEq.1
  rw [List.cons.injEq] at h2
  have h3 : (-1 : ℝ) = -7 / 2 := h2.1
  norm_num at h3

/-- C3 counterexample: with the positive budget `max_iter = 1` the
normalization loop on `cexX` executes 2 iterations, exceeding the claimed
bound of at most `max_iter` iterations. -/
theorem C3_counterexample :
    ¬ (twoWayRun cexX true 1 (1 / 1000000)).n_iter ≤ 1 := by
  have h : twoWayRun cexX true 1 (1 / 1000000) = stA2 := by
    show loop true 2 4 (1 / 1000000) (1 + 1) (initSt cexX) = stA2
    rw [loop_succ, if_pos (show errGt (initSt cexX).err (1 / 1000000) from trivial),
      runA1]
    rw [loop_one, if_pos guardA1]
    exact runA2
  rw [h]
  norm_num [stA2]

/-- C7 witness: a concrete fitted estimator and 1 × 1 input, where the
returned entry is `(7 * 2 + 3) * 5 + 10 = 95`. -/
theorem C7_inverse_transform_formula_witness :
    entry (invRun true true ⟨[10], some [25], [3], none, some [2], some [5], 1, 1⟩
      [[7]]).buf 0 0 = 95 := by
  have hM : rect [[(7 : ℝ)]] 1 1 := by
    refine ⟨rfl, ?_⟩
    intro row hrow
    simp only [List.mem_cons, List.not_mem_nil, or_false] at hrow
    rw [hrow]
    rfl
  obtain ⟨h1, h2⟩ := C7_inverse_transform_formula
    ⟨true, true, true, some ⟨[10], some [25], [3], none, some [2], some [5], 1, 1⟩⟩
    ⟨[10], some [25], [3], none, some [2], some [5], 1, 1⟩ [[7]] false [2] [5]
    rfl hM rfl rfl (fun _ => ⟨rfl, rfl⟩) (fun _ => ⟨rfl, rfl⟩)
  have h3 := h2 0 0 (by norm_num) (by norm_num)
  refine h3.trans ?_
  norm_num [entry]

end TwoWayScaler
